import Mathlib

/-!
Verification of the SSE client core of the datastar-bun-sdk repository
(`src/sse-client.ts`, class `SSEClient`).

The embedding works over `Str := List Char` (JS strings), `ℚ` for JS numbers
(the arithmetic used by the client — products, powers with natural exponents,
`Math.min`, `Math.round` — is exact on the values in play), and `Int` for
computed millisecond delays.  Stateful methods of the class become pure
functions from a `ClientState` to a new state plus the list of emitted
signals;  `Math.random()` becomes an explicit argument `rand ∈ [0,1)`.
The best-effort `JSON.parse` applied to a record's accumulated `data`
string (sse-client.ts lines 462-471) is deliberately not modelled: every
property below concerns the payload before that step, and the step is a
function of the payload, so record equalities are unaffected.
-/

namespace DatastarSSE

/-- JS strings are modelled as lists of characters. -/
abbrev Str := List Char

/-! ## Frame extraction (sse-client.ts lines 379-398)

`_extractAndProcessEventsFromBuffer` repeatedly looks for `"\n\n"` with
`buffer.indexOf('\n\n', position)`, cuts out the block before it, and finally
returns the unconsumed tail `buffer.substring(position)`. -/

/-- The first occurrence of `"\n\n"` in the buffer: `some (block, rest)` splits
the buffer as `block ++ '\n' :: '\n' :: rest`; `none` when `indexOf` returns
`-1`. -/
def findFrameEnd : Str → Option (Str × Str)
  | [] => none
  | [_] => none
  | c1 :: c2 :: rest =>
    if c1 = '\n' ∧ c2 = '\n' then some ([], rest)
    else (findFrameEnd (c2 :: rest)).map (fun p => (c1 :: p.1, p.2))

theorem findFrameEnd_shape : ∀ (s b r : Str), findFrameEnd s = some (b, r) →
    s = b ++ '\n' :: '\n' :: r := by
  intro s
  induction s with
  | nil => intro b r h; simp [findFrameEnd] at h
  | cons c1 rest ih =>
    intro b r h
    match rest with
    | [] => simp [findFrameEnd] at h
    | c2 :: rest' =>
      rw [findFrameEnd] at h
      split at h
      · rename_i hnl
        obtain ⟨hb, hr⟩ := Prod.mk.injEq .. ▸ (Option.some.injEq .. ▸ h)
        subst hb; subst hr
        simp [hnl.1, hnl.2]
      · rcases ho : findFrameEnd (c2 :: rest') with _ | p
        · rw [ho] at h; simp at h
        · rw [ho] at h
          simp only [Option.map_some', Option.some.injEq, Prod.mk.injEq] at h
          obtain ⟨hb, hr⟩ := h
          have hs := ih p.1 p.2 (by rw [ho])
          subst hb; subst hr
          simp only [List.cons_append]
          exact congrArg (c1 :: ·) hs

theorem findFrameEnd_rest_length (s b r : Str) (h : findFrameEnd s = some (b, r)) :
    r.length < s.length := by
  have := findFrameEnd_shape s b r h
  subst this
  simp
  omega

/-- The frame-splitting loop of `_extractAndProcessEventsFromBuffer`: the list
of complete blank-line-terminated blocks, in order, plus the unconsumed
remainder of the buffer. -/
def extractFrames (buffer : Str) : List Str × Str :=
  match h : findFrameEnd buffer with
  | none => ([], buffer)
  | some (block, rest) =>
    let p := extractFrames rest
    (block :: p.1, p.2)
termination_by buffer.length
decreasing_by exact findFrameEnd_rest_length buffer block rest h

theorem extractFrames_of_none (s : Str) (h : findFrameEnd s = none) :
    extractFrames s = ([], s) := by
  rw [extractFrames, h]

theorem extractFrames_of_some (s b r : Str) (h : findFrameEnd s = some (b, r)) :
    extractFrames s = (b :: (extractFrames r).1, (extractFrames r).2) := by
  rw [extractFrames, h]

/-! ## Event parsing (sse-client.ts lines 406-475) -/

/-- One iteration of the `for (const line of lines)` loop classifies the line:
skipped (`!line`, or no colon), a comment (`line.startsWith(':')`), or a
field/value pair. -/
inductive LineAction
  | skip
  | comment
  | fieldLine (field : Str) (value : Str)
deriving DecidableEq

/-- Optional single space after the colon (line 433: the space after the colon
is ignored). -/
def stripOneSpace : Str → Str
  | ' ' :: rest => rest
  | s => s

/-- Split a line at its first colon (`line.indexOf(':')`, lines 428-434);
the value has at most one leading space stripped; `none` when the line has
no colon. -/
def splitField : Str → Option (Str × Str)
  | [] => none
  | c :: rest =>
    if c = ':' then some ([], stripOneSpace rest)
    else (splitField rest).map (fun p => (c :: p.1, p.2))

/-- Classification of one line of an event block (lines 416-434). -/
def lineAction (line : Str) : LineAction :=
  match line with
  | [] => .skip
  | ':' :: _ => .comment
  | _ =>
    match splitField line with
    | none => .skip
    | some (f, v) => .fieldLine f v

/-- JS `parseInt(value, 10)` on the value of a `retry:` field (line 452):
optional leading whitespace, optional sign, then a non-empty run of decimal
digits (trailing garbage ignored); `none` plays the role of `NaN`. -/
def digitsVal (s : Str) : Option Nat :=
  let ds := s.takeWhile (fun c => c.isDigit)
  if ds = [] then none
  else some (ds.foldl (fun a c => a * 10 + (c.toNat - 48)) 0)

def parseIntJS (s : Str) : Option Int :=
  let t := s.dropWhile (fun c => c = ' ' ∨ c = '\t' ∨ c = '\n' ∨ c = '\r')
  match t with
  | '-' :: rest => (digitsVal rest).map (fun n => -(n : Int))
  | '+' :: rest => (digitsVal rest).map (fun n => (n : Int))
  | _ => (digitsVal t).map (fun n => (n : Int))

/-- The `data` accumulation of lines 445-449: `event.data` is extended with
`'\n' + value` when already truthy (non-empty), otherwise replaced by the
value. -/
def dataStep (d v : Str) : Str :=
  if d ≠ [] then d ++ '\n' :: v else v

/-- A parsed SSE event record (`SSEEvent`), with `data` held as the raw
accumulated string (before the best-effort `JSON.parse`). -/
structure SSEEvent where
  eventName : Str
  data : Str
  id : Option Str
  retry : Option Int
deriving DecidableEq

/-- The accumulator of `_parseEvent`'s line loop: the `event` object under
construction plus the side effects the loop performs on the client
(`this.lastEventId` and `this.currentServerRetry` assignments, with the last
assignment winning, and the number of `_resetHeartbeatTimer()` calls made for
comment lines). -/
structure ParseAcc where
  eventName : Str
  data : Str
  id : Option Str
  retry : Option Int
  idUpd : Option Str
  retryUpd : Option Int
  hbResets : Nat
deriving DecidableEq

/-- Lines 408-411: `event = { eventName: 'message', data: '' }`, with no side
effects performed yet. -/
def initAcc : ParseAcc :=
  { eventName := "message".toList, data := [], id := none, retry := none,
    idUpd := none, retryUpd := none, hbResets := 0 }

/-- The body of the `for` loop of `_parseEvent` (lines 416-460). -/
def parseLine (acc : ParseAcc) (line : Str) : ParseAcc :=
  match lineAction line with
  | .skip => acc
  | .comment => { acc with hbResets := acc.hbResets + 1 }
  | .fieldLine f v =>
    if f = "id".toList then { acc with id := some v, idUpd := some v }
    else if f = "event".toList then { acc with eventName := v }
    else if f = "data".toList then { acc with data := dataStep acc.data v }
    else if f = "retry".toList then
      match parseIntJS v with
      | some n => { acc with retry := some n, retryUpd := some n }
      | none => acc
    else acc

/-- The whole line loop of `_parseEvent` over a list of lines. -/
def parseLines (lines : List Str) : ParseAcc :=
  lines.foldl parseLine initAcc

/-- Method `_parseEvent` on an event block: the block is split on `'\n'`
(line 414) and the lines folded. -/
def parseEventAcc (block : Str) : ParseAcc :=
  parseLines (block.splitOn '\n')

/-- Lines 462-475: a record is returned exactly when the accumulated `data`
is truthy (non-empty); otherwise `_parseEvent` returns `null`. -/
def recordOf (a : ParseAcc) : Option SSEEvent :=
  if a.data ≠ [] then some ⟨a.eventName, a.data, a.id, a.retry⟩ else none

/-- The record (if any) parsed from one event block. -/
def parseEventRecord (block : Str) : Option SSEEvent :=
  recordOf (parseEventAcc block)

/-! ## Incremental stream consumption (sse-client.ts lines 346-371)

`_processEventStream` keeps a buffer, appends each decoded chunk, and replaces
the buffer by the remainder returned from
`_extractAndProcessEventsFromBuffer`. -/

/-- The read loop of `_processEventStream`, restricted to what it does with
the text: starting from the current unconsumed remainder, feed each chunk and
collect all complete frames in order, returning them plus the final
remainder. -/
def processChunks : Str → List Str → List Str × Str
  | rem, [] => ([], rem)
  | rem, c :: cs =>
    let p := extractFrames (rem ++ c)
    let q := processChunks p.2 cs
    (p.1 ++ q.1, q.2)

/-! ### Chunking lemmas

The buffer-remainder protocol is compositional: scanning `a ++ t` finds the
frames of `a` first, then continues from `a`'s remainder glued to `t`. -/

theorem findFrameEnd_append_some (a t b r : Str) (h : findFrameEnd a = some (b, r)) :
    findFrameEnd (a ++ t) = some (b, r ++ t) := by
  induction a generalizing b r with
  | nil => simp [findFrameEnd] at h
  | cons c1 rest ih =>
    match rest with
    | [] => simp [findFrameEnd] at h
    | c2 :: rest' =>
      rw [findFrameEnd] at h
      rw [List.cons_append, List.cons_append, findFrameEnd]
      split at h
      · rename_i hnl
        rw [if_pos hnl]
        simp only [Option.some.injEq, Prod.mk.injEq] at h
        rw [← h.1, ← h.2]
      · rename_i hnl
        rw [if_neg hnl]
        rcases ho : findFrameEnd (c2 :: rest') with _ | p
        · rw [ho] at h; simp at h
        · rw [ho] at h
          simp only [Option.map_some', Option.some.injEq, Prod.mk.injEq] at h
          have := ih p.1 p.2 (by rw [ho])
          rw [← List.cons_append, this]
          simp [← h.1, ← h.2]

theorem extractFrames_append (t : Str) : ∀ (a : Str),
    extractFrames (a ++ t) =
      ((extractFrames a).1 ++ (extractFrames ((extractFrames a).2 ++ t)).1,
       (extractFrames ((extractFrames a).2 ++ t)).2) := by
  intro a
  induction a using extractFrames.induct with
  | case1 a ho =>
    rw [extractFrames_of_none a ho]
    simp
  | case2 a b r ho ih =>
    rw [extractFrames_of_some a b r ho,
        extractFrames_of_some (a ++ t) b (r ++ t) (findFrameEnd_append_some a t b r ho), ih]
    simp

/-- The remainder returned by the frame-splitting loop contains no frame
boundary (otherwise `indexOf` would have found it). -/
theorem extractFrames_rem_no_end : ∀ (s : Str), findFrameEnd (extractFrames s).2 = none := by
  intro s
  induction s using extractFrames.induct with
  | case1 s ho => rw [extractFrames_of_none s ho]; exact ho
  | case2 s b r ho ih => rw [extractFrames_of_some s b r ho]; exact ih

theorem processChunks_eq_extract (cs : List Str) : ∀ (rem : Str),
    findFrameEnd rem = none →
    processChunks rem cs = extractFrames (rem ++ cs.flatten) := by
  induction cs with
  | nil =>
    intro rem h
    rw [processChunks, List.flatten_nil, List.append_nil, extractFrames_of_none rem h]
  | cons c cs ih =>
    intro rem h
    rw [processChunks, List.flatten_cons, ← List.append_assoc,
        extractFrames_append (cs.flatten) (rem ++ c),
        ih (extractFrames (rem ++ c)).2 (extractFrames_rem_no_end (rem ++ c))]

/-! ## Client state and lifecycle (sse-client.ts lines 12-42, 172-339)

The mutable fields of the `SSEClient` instance.  The `AbortController` is
modelled by the boolean `hasController` (whether a live controller exists),
timers by their pending payloads (`reconnectTimer` holds the scheduled delay,
`heartbeatTimer` whether the watchdog is armed).  `hbArms` counts how many
times the heartbeat timer has been armed — pure instrumentation used to state
re-arming properties, touched only where `setTimeout` is called in
`_startHeartbeatTimer`. -/

/-- Field `this.retryOptions` (lines 16-21). -/
structure RetryOptions where
  maxRetries : ℚ
  initialDelay : ℚ
  backoffFactor : ℚ
  maxRetryDelay : ℚ
deriving DecidableEq

structure ClientState where
  heartbeatInterval : ℚ
  retryOptions : RetryOptions
  isExplicitlyClosed : Bool
  hasController : Bool
  lastEventId : Option Str
  currentServerRetry : Option Int
  retryAttempts : Nat
  reconnectTimer : Option Int
  heartbeatTimer : Bool
  hbArms : Nat
deriving DecidableEq

/-- The error object carried by an `error` emission from `connect`:
a `DatastarAuthenticationError` (with its HTTP status) or a generic
`DatastarSSEError`. -/
inductive ConnErr
  | authError (status : Nat)
  | sseError
deriving DecidableEq

/-- The lifecycle emissions of the client relevant to the claims. -/
inductive Signal
  | opened
  | errorSig (e : ConnErr)
  | warning
  | reconnecting (attempt : Nat) (delay : Int)
  | closeSig (intentional : Bool) (reason : Option String)
deriving DecidableEq

/-- Method `_stopHeartbeatTimer` (lines 245-250). -/
def stopHeartbeatTimer (s : ClientState) : ClientState :=
  { s with heartbeatTimer := false }

/-- Method `_startHeartbeatTimer` (lines 228-239): always stops the previous timer,
then arms a new one only when `heartbeatInterval > 0`. -/
def startHeartbeatTimer (s : ClientState) : ClientState :=
  let s := stopHeartbeatTimer s
  if s.heartbeatInterval > 0 then
    { s with heartbeatTimer := true, hbArms := s.hbArms + 1 }
  else s

/-- Method `_resetHeartbeatTimer` (lines 509-513). -/
def resetHeartbeatTimer (s : ClientState) : ClientState :=
  if s.heartbeatInterval > 0 then startHeartbeatTimer s else s

/-- JS `Math.round` on a rational: floor of `q + 1/2` (also the JS behaviour
on negative halves). -/
def jsRound (q : ℚ) : Int := ⌊q + 1 / 2⌋

/-- Lines 310-314: `min(maxRetryDelay, initialDelay * backoffFactor ^
retryAttempts)` — the exponential-backoff delay before jitter. -/
def cappedBase (opts : RetryOptions) (attempts : Nat) : ℚ :=
  min opts.maxRetryDelay (opts.initialDelay * opts.backoffFactor ^ attempts)

/-- Line 317: `0.95 + Math.random() * 0.1`, with the random draw explicit. -/
def jitterFactor (rand : ℚ) : ℚ := 95 / 100 + rand * (1 / 10)

/-- Lines 310-318: the jittered, rounded backoff delay. -/
def backoffDelay (opts : RetryOptions) (attempts : Nat) (rand : ℚ) : Int :=
  jsRound (cappedBase opts attempts * jitterFactor rand)

/-- Method `_scheduleReconnect` (lines 284-339).  `rand` is the `Math.random()`
draw consumed when no server retry hint is pending. -/
def scheduleReconnect (rand : ℚ) (s : ClientState) : ClientState × List Signal :=
  let s := { s with reconnectTimer := none }
  if (s.retryAttempts : ℚ) ≥ s.retryOptions.maxRetries then
    (s, [Signal.closeSig false (some "max_retries_reached")])
  else
    let p : ClientState × Int :=
      match s.currentServerRetry with
      | some v => ({ s with currentServerRetry := none }, v)
      | none => (s, backoffDelay s.retryOptions s.retryAttempts rand)
    let s := { p.1 with retryAttempts := p.1.retryAttempts + 1 }
    let s := { s with reconnectTimer := some p.2 }
    (s, [Signal.reconnecting s.retryAttempts p.2])

/-- Method `_handleDisconnect` (lines 270-278). -/
def handleDisconnect (isError : Bool) (rand : ℚ) (s : ClientState) :
    ClientState × List Signal :=
  if s.isExplicitlyClosed then (s, []) else scheduleReconnect rand s

/-- Method `close` (lines 172-197): set the sticky flag, abort and drop the
controller, stop both timers, reset the retry counter, and emit one
intentional `close` signal. -/
def close (s : ClientState) : ClientState × List Signal :=
  let s := { s with isExplicitlyClosed := true }
  let s := { s with hasController := false }
  let s := stopHeartbeatTimer s
  let s := { s with reconnectTimer := none }
  let s := { s with retryAttempts := 0 }
  (s, [Signal.closeSig true none])

/-- The entry of `connect` (lines 50-62): reset `retryAttempts` unless
reconnecting, return without any I/O when explicitly closed (`none`),
otherwise create a fresh `AbortController` and proceed. -/
def connectEntry (isReconnect : Bool) (s : ClientState) : Option ClientState :=
  let s := if !isReconnect then { s with retryAttempts := 0 } else s
  if s.isExplicitlyClosed then none
  else some { s with hasController := true }

/-- Lines 86-111: the error thrown for a non-ok HTTP response.  The inner
`try` first awaits `response.json()`; when that throws (body not JSON) the
`catch` wraps the failure in a generic `DatastarSSEError`, so the
401/403 `DatastarAuthenticationError` is only reached when the body parsed
as JSON. -/
def classifyHttpFailure (status : Nat) (bodyIsJson : Bool) : ConnErr :=
  if bodyIsJson then
    if status = 401 ∨ status = 403 then ConnErr.authError status
    else ConnErr.sseError
  else ConnErr.sseError

/-- The `catch` of `connect` (lines 136-165) applied to a non-ok HTTP
response: when not explicitly closed, emit the classified `error` signal and
call `_handleDisconnect(true)`. -/
def connectHttpFailure (status : Nat) (bodyIsJson : Bool) (rand : ℚ)
    (s : ClientState) : ClientState × List Signal :=
  if s.isExplicitlyClosed then (s, [])
  else
    let p := handleDisconnect true rand s
    (p.1, Signal.errorSig (classifyHttpFailure status bodyIsJson) :: p.2)

/-- The client-observable side effects of `_parseEvent` on one block
(lines 421-424: one `_resetHeartbeatTimer()` per comment line; line 439:
`this.lastEventId = value`; line 455: `this.currentServerRetry =
retryValue`). -/
def applyParseEffects (s : ClientState) (a : ParseAcc) : ClientState :=
  let s := resetHeartbeatTimer^[a.hbResets] s
  let s := match a.idUpd with
    | some v => { s with lastEventId := some v }
    | none => s
  match a.retryUpd with
  | some v => { s with currentServerRetry := some v }
  | none => s

/-- Processing of one complete frame by `_extractAndProcessEventsFromBuffer`
(lines 390-393): run `_parseEvent` (side effects included) and, when it
returns a record, `_dispatchEvent` it — whose first action (line 484) is
another `_resetHeartbeatTimer()`. -/
def processFrame (s : ClientState) (block : Str) : ClientState :=
  let a := parseEventAcc block
  let s := applyParseEffects s a
  match recordOf a with
  | some _ => resetHeartbeatTimer s
  | none => s

/-! ## Construction and reconfiguration (sse-client.ts lines 31-42, 203-222) -/

/-- The `retryOptions` constructor argument, every field optional. -/
structure RetryOptionsInput where
  maxRetries : Option ℚ := none
  initialDelay : Option ℚ := none
  backoffFactor : Option ℚ := none
  maxRetryDelay : Option ℚ := none
deriving DecidableEq

/-- The `SSEClientOptions` fields the claims depend on (url, headers and
compression are irrelevant to the modelled state). -/
structure SSEClientOptions where
  heartbeatInterval : Option ℚ := none
  retryOptions : Option RetryOptionsInput := none
deriving DecidableEq

/-- JS `x || d` for `x` a number or undefined: `undefined` and the falsy
number `0` both fall back to the default. -/
def jsOrNum (x : Option ℚ) (d : ℚ) : ℚ :=
  match x with
  | some v => if v = 0 then d else v
  | none => d

/-- The constructor (lines 31-42).  Note every numeric default is applied
with `||`, so an explicit `0` is replaced by the default. -/
def mkClient (o : SSEClientOptions) : ClientState :=
  { heartbeatInterval := jsOrNum o.heartbeatInterval 30000
    retryOptions :=
      { maxRetries := jsOrNum (o.retryOptions.bind (fun r => r.maxRetries)) 3
        initialDelay := jsOrNum (o.retryOptions.bind (fun r => r.initialDelay)) 1000
        backoffFactor := jsOrNum (o.retryOptions.bind (fun r => r.backoffFactor)) 2
        maxRetryDelay := jsOrNum (o.retryOptions.bind (fun r => r.maxRetryDelay)) 10000 }
    isExplicitlyClosed := false
    hasController := false
    lastEventId := none
    currentServerRetry := none
    retryAttempts := 0
    reconnectTimer := none
    heartbeatTimer := false
    hbArms := 0 }

/-- Method `configure` (lines 203-222), restricted to the modelled fields:
`heartbeatInterval` is overwritten whenever it is not `undefined` (an
explicit `0` is kept), and a supplied `retryOptions` object is spread over
the existing one field-by-field. -/
def configure (o : SSEClientOptions) (s : ClientState) : ClientState :=
  let s := match o.heartbeatInterval with
    | some v => { s with heartbeatInterval := v }
    | none => s
  match o.retryOptions with
  | some ro =>
    { s with retryOptions :=
      { maxRetries := ro.maxRetries.getD s.retryOptions.maxRetries
        initialDelay := ro.initialDelay.getD s.retryOptions.initialDelay
        backoffFactor := ro.backoffFactor.getD s.retryOptions.backoffFactor
        maxRetryDelay := ro.maxRetryDelay.getD s.retryOptions.maxRetryDelay } }
  | none => s

/-! ## Sample states used by concrete witnesses and counterexamples -/

/-- A client in the `open` state with the given retry options: connected
(controller live, heartbeat armed), no pending reconnect, no server hint. -/
def openState (opts : RetryOptions) : ClientState :=
  { heartbeatInterval := 30000
    retryOptions := opts
    isExplicitlyClosed := false
    hasController := true
    lastEventId := none
    currentServerRetry := none
    retryAttempts := 0
    reconnectTimer := none
    heartbeatTimer := true
    hbArms := 1 }

/-- The constructor defaults: maxRetries 3, initialDelay 1000 ms,
backoffFactor 2, maxRetryDelay 10000 ms. -/
def defaultRetryOptions : RetryOptions := ⟨3, 1000, 2, 10000⟩

/-! ## Claim C1 — `close()` semantics and absence of later scheduling -/

/-- C1: `close()` sets `isExplicitlyClosed`, aborts the active request,
clears the heartbeat and reconnect timers, resets `retryAttempts` to 0 and
emits exactly one intentional `close` signal; afterwards (and on any state
with the sticky flag set) `_handleDisconnect` performs no scheduling and a
reconnect-timer-fired `connect` gives up before any I/O. -/
theorem close_is_terminal (s : ClientState) :
    ((close s).1.isExplicitlyClosed = true ∧
     (close s).1.hasController = false ∧
     (close s).1.heartbeatTimer = false ∧
     (close s).1.reconnectTimer = none ∧
     (close s).1.retryAttempts = 0 ∧
     (close s).2 = [Signal.closeSig true none]) ∧
    (∀ (t : ClientState) (b : Bool) (r : ℚ), t.isExplicitlyClosed = true →
      handleDisconnect b r t = (t, [])) ∧
    (∀ (b : Bool) (r : ℚ), handleDisconnect b r (close s).1 = ((close s).1, [])) ∧
    (∀ b : Bool, connectEntry b (close s).1 = none) := by
  refine ⟨⟨rfl, rfl, rfl, rfl, rfl, rfl⟩, ?_, ?_, ?_⟩
  · intro t b r ht
    simp [handleDisconnect, ht]
  · intro b r
    simp [handleDisconnect, close, stopHeartbeatTimer]
  · intro b
    cases b <;> simp [connectEntry, close, stopHeartbeatTimer]

theorem close_is_terminal_witness :
    handleDisconnect true 0 { openState defaultRetryOptions with isExplicitlyClosed := true } =
      ({ openState defaultRetryOptions with isExplicitlyClosed := true }, []) :=
  (close_is_terminal (openState defaultRetryOptions)).2.1 _ true 0 rfl

/-! ## Claim C5 — retry ceiling is terminal -/

/-- C5: a non-intentional termination handled with `retryAttempts >=
maxRetries` schedules nothing, leaves `retryAttempts` unchanged, and emits
exactly one `close` signal with `intentional = false` and reason
`max_retries_reached`; with no pending reconnect timer no further connect
can occur without an external `connect()` call. -/
theorem max_retries_terminal (s : ClientState) (r : ℚ)
    (hopen : s.isExplicitlyClosed = false)
    (hmax : s.retryOptions.maxRetries ≤ (s.retryAttempts : ℚ)) :
    handleDisconnect true r s =
      ({ s with reconnectTimer := none },
       [Signal.closeSig false (some "max_retries_reached")]) ∧
    (handleDisconnect true r s).1.retryAttempts = s.retryAttempts ∧
    (handleDisconnect true r s).1.reconnectTimer = none := by
  have h : handleDisconnect true r s =
      ({ s with reconnectTimer := none },
       [Signal.closeSig false (some "max_retries_reached")]) := by
    simp only [handleDisconnect, hopen, Bool.false_eq_true, if_false, scheduleReconnect]
    rw [if_pos hmax]
  exact ⟨h, by rw [h], by rw [h]⟩

theorem max_retries_terminal_witness :
    handleDisconnect true 0 { openState defaultRetryOptions with retryAttempts := 3 } =
      ({ openState defaultRetryOptions with retryAttempts := 3, reconnectTimer := none },
       [Signal.closeSig false (some "max_retries_reached")]) := by
  have h := (max_retries_terminal
    { openState defaultRetryOptions with retryAttempts := 3 } 0 rfl (by norm_num [openState, defaultRetryOptions])).1
  exact h

/-! ## Claim C4 — a server `retry:` hint is honored exactly once -/

/-- C4: when `currentServerRetry` holds a parsed `retry:` value and a
non-intentional termination is handled below the retry ceiling, the next
reconnect is scheduled with exactly that delay and the hint is cleared, so
the following attempt (absent a new hint) uses the backoff-computed delay. -/
theorem server_retry_used_once (s : ClientState) (v : Int) (r₁ r₂ : ℚ)
    (hopen : s.isExplicitlyClosed = false)
    (hret : s.currentServerRetry = some v)
    (hlt : (s.retryAttempts : ℚ) < s.retryOptions.maxRetries) :
    (handleDisconnect true r₁ s).1.reconnectTimer = some v ∧
    (handleDisconnect true r₁ s).1.currentServerRetry = none ∧
    (handleDisconnect true r₁ s).2 = [Signal.reconnecting (s.retryAttempts + 1) v] ∧
    (handleDisconnect true r₁ s).1.retryAttempts = s.retryAttempts + 1 ∧
    (((s.retryAttempts + 1 : ℕ) : ℚ) < s.retryOptions.maxRetries →
      (handleDisconnect true r₂ (handleDisconnect true r₁ s).1).1.reconnectTimer =
        some (backoffDelay s.retryOptions (s.retryAttempts + 1) r₂)) := by
  have h1 : handleDisconnect true r₁ s =
      ({ s with
          currentServerRetry := none
          retryAttempts := s.retryAttempts + 1
          reconnectTimer := some v },
       [Signal.reconnecting (s.retryAttempts + 1) v]) := by
    simp only [handleDisconnect, hopen, Bool.false_eq_true, if_false, scheduleReconnect]
    rw [if_neg (not_le.mpr hlt), hret]
  rw [h1]
  refine ⟨rfl, rfl, rfl, rfl, ?_⟩
  intro h2
  simp only [handleDisconnect, hopen, Bool.false_eq_true, if_false, scheduleReconnect]
  rw [if_neg (not_le.mpr h2)]

theorem server_retry_used_once_witness :
    (handleDisconnect true 0 { openState defaultRetryOptions with currentServerRetry := some 100 }).1.reconnectTimer = some 100 ∧
    (handleDisconnect true 0
      (handleDisconnect true 0 { openState defaultRetryOptions with currentServerRetry := some 100 }).1).1.reconnectTimer =
      some (backoffDelay defaultRetryOptions 1 0) := by
  have h := server_retry_used_once
    { openState defaultRetryOptions with currentServerRetry := some 100 } 100 0 0
    rfl rfl (by norm_num [openState, defaultRetryOptions])
  exact ⟨h.1, h.2.2.2.2 (by norm_num [openState, defaultRetryOptions])⟩

/-! ## Claim C9 — HTTP failure classification and routing (corrected) -/

/-- C9 (amended): a non-success HTTP status is treated as a failure and
routed through `_handleDisconnect`, with the emitted `error` signal an
authentication error exactly when the status is 401 or 403 AND the error
body parsed as JSON; every other non-ok outcome (other statuses, or a
401/403 whose body is not JSON) yields a generic stream error. -/
theorem http_failure_classified (s : ClientState) (status : Nat) (bodyIsJson : Bool) (r : ℚ)
    (hopen : s.isExplicitlyClosed = false) :
    connectHttpFailure status bodyIsJson r s =
      ((handleDisconnect true r s).1,
       Signal.errorSig (classifyHttpFailure status bodyIsJson) :: (handleDisconnect true r s).2) ∧
    (classifyHttpFailure status bodyIsJson = ConnErr.authError status ↔
      ((status = 401 ∨ status = 403) ∧ bodyIsJson = true)) := by
  constructor
  · simp [connectHttpFailure, hopen]
  · cases bodyIsJson with
    | false => simp [classifyHttpFailure]
    | true =>
      by_cases hst : status = 401 ∨ status = 403 <;>
        simp [classifyHttpFailure, hst]

theorem http_failure_classified_witness :
    connectHttpFailure 401 true 0 (openState defaultRetryOptions) =
      ((handleDisconnect true 0 (openState defaultRetryOptions)).1,
       Signal.errorSig (ConnErr.authError 401) ::
         (handleDisconnect true 0 (openState defaultRetryOptions)).2) := by
  have h := http_failure_classified (openState defaultRetryOptions) 401 true 0 rfl
  have ha : classifyHttpFailure 401 true = ConnErr.authError 401 := h.2.mpr (by simp)
  rw [← ha]
  exact h.1

/-- C9 counterexample: a 401 whose error body is not JSON is emitted as a
generic `DatastarSSEError` stream error, not as an authentication error, so
"authentication-error exactly when the status is 401 or 403" fails as
stated. -/
theorem http_failure_401_nonjson_generic :
    (connectHttpFailure 401 false 0 (openState defaultRetryOptions)).2.head? =
      some (Signal.errorSig ConnErr.sseError) ∧
    classifyHttpFailure 401 false ≠ ConnErr.authError 401 := by
  constructor
  · simp [connectHttpFailure, openState, classifyHttpFailure]
  · simp [classifyHttpFailure]

/-! ## Claim C7 — `heartbeatInterval = 0` (corrected) -/

/-- C7 (amended): an interval of 0 set through `configure` disables the
heartbeat watchdog — neither `_startHeartbeatTimer` nor
`_resetHeartbeatTimer` ever arms a timer, so no heartbeat warning or abort
can fire; constructing with `heartbeatInterval: 0` however falls back to
the 30000 ms default (`options.heartbeatInterval || 30000`), so the
constructor cannot disable the feature. -/
theorem heartbeat_zero_configure_disables (s : ClientState) (o : SSEClientOptions)
    (h : o.heartbeatInterval = some 0) :
    (configure o s).heartbeatInterval = 0 ∧
    (∀ t : ClientState, t.heartbeatInterval = 0 →
      (startHeartbeatTimer t).heartbeatTimer = false ∧
      (startHeartbeatTimer t).hbArms = t.hbArms ∧
      resetHeartbeatTimer t = t) := by
  constructor
  · rcases o with ⟨hi, ro⟩
    cases ro <;> simp_all [configure]
  · intro t ht
    refine ⟨?_, ?_, ?_⟩ <;>
      simp [startHeartbeatTimer, stopHeartbeatTimer, resetHeartbeatTimer, ht]

theorem heartbeat_zero_configure_disables_witness :
    (configure ⟨some 0, none⟩ (openState defaultRetryOptions)).heartbeatInterval = 0 ∧
    resetHeartbeatTimer (configure ⟨some 0, none⟩ (openState defaultRetryOptions)) =
      configure ⟨some 0, none⟩ (openState defaultRetryOptions) := by
  have h := heartbeat_zero_configure_disables (openState defaultRetryOptions) ⟨some 0, none⟩ rfl
  exact ⟨h.1, (h.2 _ h.1).2.2⟩

/-- C7 counterexample: a client constructed with `heartbeatInterval: 0`
ends up with the default interval 30000 and `_startHeartbeatTimer` does arm
the watchdog, contradicting "no heartbeat timer is ever armed". -/
theorem heartbeat_zero_constructor_ignored :
    (mkClient { heartbeatInterval := some 0, retryOptions := none }).heartbeatInterval = 30000 ∧
    (startHeartbeatTimer (mkClient { heartbeatInterval := some 0, retryOptions := none })).heartbeatTimer = true := by
  constructor
  · rfl
  · decide

/-! ## Claim C2 — backoff delay bounds (corrected) -/

/-- Rounding a natural multiple of a jitter factor in `[0.95, 1.05)` stays
within ±10% of the base value. -/
theorem jsRound_nat_jitter_bounds (k : ℕ) (j : ℚ)
    (h1 : 19 / 20 ≤ j) (h2 : j < 21 / 20) :
    (9 / 10) * (k : ℚ) ≤ (jsRound ((k : ℚ) * j) : ℚ) ∧
    (jsRound ((k : ℚ) * j) : ℚ) ≤ (11 / 10) * (k : ℚ) := by
  have hk0 : (0 : ℚ) ≤ (k : ℚ) := Nat.cast_nonneg k
  have hmlow : (19 / 20) * (k : ℚ) ≤ (k : ℚ) * j := by nlinarith
  have hmhigh : (k : ℚ) * j ≤ (21 / 20) * (k : ℚ) := by nlinarith
  rcases Nat.eq_zero_or_pos k with hk | hk
  · subst hk
    norm_num [jsRound]
  · have hkpos : (0 : ℚ) < (k : ℚ) := by exact_mod_cast hk
    have hmhigh' : (k : ℚ) * j < (21 / 20) * (k : ℚ) := by nlinarith
    rcases le_or_lt (k : ℚ) 10 with hsm | hlg
    · have hfl : jsRound ((k : ℚ) * j) = (k : ℤ) := by
        rw [jsRound, Int.floor_eq_iff]
        constructor
        · push_cast
          nlinarith
        · push_cast
          nlinarith
      rw [hfl]
      push_cast
      constructor <;> nlinarith
    · constructor
      · have hstep : (9 / 10) * (k : ℚ) ≤ (k : ℚ) * j + 1 / 2 - 1 := by nlinarith
        have := Int.sub_one_lt_floor ((k : ℚ) * j + 1 / 2)
        rw [jsRound]
        nlinarith
      · have := Int.floor_le ((k : ℚ) * j + 1 / 2)
        rw [jsRound]
        nlinarith

/-- C2 (amended): below the retry ceiling and with no server hint, the
scheduled delay is exactly the jittered rounded backoff value; for
natural-number (millisecond) retry options with `backoffFactor ≥ 1` the
pre-jitter capped base delays `min(maxRetryDelay, initialDelay *
backoffFactor ^ attempt)` are non-decreasing in the attempt counter, and
every jittered delay lies within ±10% of its capped base.  The jittered
delays themselves need not be non-decreasing (see the counterexample). -/
theorem backoff_delay_bounds (s : ClientState) (I F M : ℕ) (r : ℚ)
    (hopen : s.isExplicitlyClosed = false)
    (hnone : s.currentServerRetry = none)
    (hlt : (s.retryAttempts : ℚ) < s.retryOptions.maxRetries)
    (hI : s.retryOptions.initialDelay = (I : ℚ))
    (hF : s.retryOptions.backoffFactor = (F : ℚ))
    (hM : s.retryOptions.maxRetryDelay = (M : ℚ))
    (hF1 : 1 ≤ F) (hr0 : 0 ≤ r) (hr1 : r < 1) :
    (handleDisconnect true r s).1.reconnectTimer =
      some (backoffDelay s.retryOptions s.retryAttempts r) ∧
    cappedBase s.retryOptions s.retryAttempts ≤ cappedBase s.retryOptions (s.retryAttempts + 1) ∧
    (9 / 10) * cappedBase s.retryOptions s.retryAttempts ≤
      (backoffDelay s.retryOptions s.retryAttempts r : ℚ) ∧
    (backoffDelay s.retryOptions s.retryAttempts r : ℚ) ≤
      (11 / 10) * cappedBase s.retryOptions s.retryAttempts := by
  have hF1q : (1 : ℚ) ≤ (F : ℚ) := by exact_mod_cast hF1
  have hcb : ∀ n : ℕ, cappedBase s.retryOptions n = ((min M (I * F ^ n) : ℕ) : ℚ) := by
    intro n
    rw [cappedBase, hI, hF, hM]
    push_cast
    rfl
  have hj1 : 19 / 20 ≤ jitterFactor r := by
    rw [jitterFactor]
    nlinarith
  have hj2 : jitterFactor r < 21 / 20 := by
    rw [jitterFactor]
    nlinarith
  refine ⟨?_, ?_, ?_, ?_⟩
  · simp only [handleDisconnect, hopen, Bool.false_eq_true, if_false, scheduleReconnect]
    rw [if_neg (not_le.mpr hlt), hnone]
  · rw [cappedBase, cappedBase, hI, hF, hM]
    refine min_le_min (le_refl _) ?_
    have h := pow_le_pow_right₀ hF1q (Nat.le_succ s.retryAttempts)
    exact mul_le_mul_of_nonneg_left h (Nat.cast_nonneg I)
  · have h := (jsRound_nat_jitter_bounds (min M (I * F ^ s.retryAttempts)) (jitterFactor r) hj1 hj2).1
    rw [backoffDelay, hcb s.retryAttempts]
    exact h
  · have h := (jsRound_nat_jitter_bounds (min M (I * F ^ s.retryAttempts)) (jitterFactor r) hj1 hj2).2
    rw [backoffDelay, hcb s.retryAttempts]
    exact h

theorem backoff_delay_bounds_witness :
    (handleDisconnect true (1/2) (openState defaultRetryOptions)).1.reconnectTimer =
      some (backoffDelay (openState defaultRetryOptions).retryOptions 0 (1/2)) ∧
    (9 / 10) * cappedBase (openState defaultRetryOptions).retryOptions 0 ≤
      (backoffDelay (openState defaultRetryOptions).retryOptions 0 (1/2) : ℚ) := by
  have h := backoff_delay_bounds (openState defaultRetryOptions) 1000 2 10000 (1/2)
    rfl rfl (by norm_num [openState, defaultRetryOptions])
    (by norm_num [openState, defaultRetryOptions])
    (by norm_num [openState, defaultRetryOptions])
    (by norm_num [openState, defaultRetryOptions])
    (by norm_num) (by norm_num) (by norm_num)
  exact ⟨h.1, h.2.2.1⟩

/-- C2 counterexample: with `initialDelay = maxRetryDelay = 1000` the cap is
active from the first attempt; a jitter draw of 0.9 followed by a draw of 0
yields consecutive scheduled delays of 1040 ms and then 950 ms, so the
delays computed by `_scheduleReconnect` are not non-decreasing. -/
theorem backoff_delays_can_decrease :
    (handleDisconnect true (9/10) (openState ⟨5, 1000, 2, 1000⟩)).1.reconnectTimer = some 1040 ∧
    (handleDisconnect true 0
      (handleDisconnect true (9/10) (openState ⟨5, 1000, 2, 1000⟩)).1).1.reconnectTimer = some 950 ∧
    ¬ (1040 : ℤ) ≤ 950 := by
  refine ⟨?_, ?_, by norm_num⟩ <;>
    norm_num [handleDisconnect, scheduleReconnect, openState, backoffDelay,
      cappedBase, jitterFactor, jsRound, min_def]

/-! ## Line-level views of the parse loop -/

/-- Whether a line is an SSE comment (triggers the heartbeat reset of
line 423). -/
def lineIsComment (line : Str) : Bool :=
  match lineAction line with
  | .comment => true
  | _ => false

/-- The `data:` value contributed by a line, if any (the `case 'data'`
branch, lines 445-450). -/
def lineDataValue (line : Str) : Option Str :=
  match lineAction line with
  | .fieldLine f v => if f = "data".toList then some v else none
  | _ => none

/-- The `data:` values of a block's lines, in order. -/
def dataValues (lines : List Str) : List Str :=
  lines.filterMap lineDataValue

/-- Spec-side definition: the data line values joined by `"\n"`, in their
original order (spec §4.2 / §8). -/
def specJoinData (vs : List Str) : Str :=
  match vs with
  | [] => []
  | v :: rest => v ++ (rest.map (fun w => '\n' :: w)).flatten

theorem parseLine_eff (a : ParseAcc) (l : Str) :
    (parseLine a l).data =
      (match lineDataValue l with
        | some v => dataStep a.data v
        | none => a.data) ∧
    (parseLine a l).hbResets = a.hbResets + (if lineIsComment l then 1 else 0) := by
  rw [parseLine, lineDataValue, lineIsComment]
  cases h : lineAction l with
  | skip => exact ⟨rfl, rfl⟩
  | comment => exact ⟨rfl, rfl⟩
  | fieldLine f v =>
    dsimp only
    by_cases h1 : f = "id".toList
    · rw [if_pos h1, if_neg (by rw [h1]; decide)]
      exact ⟨rfl, rfl⟩
    · rw [if_neg h1]
      by_cases h2 : f = "event".toList
      · rw [if_pos h2, if_neg (by rw [h2]; decide)]
        exact ⟨rfl, rfl⟩
      · rw [if_neg h2]
        by_cases h3 : f = "data".toList
        · rw [if_pos h3, if_pos h3]
          exact ⟨rfl, rfl⟩
        · rw [if_neg h3, if_neg h3]
          by_cases h4 : f = "retry".toList
          · rw [if_pos h4]
            cases parseIntJS v with
            | some n => exact ⟨rfl, rfl⟩
            | none => exact ⟨rfl, rfl⟩
          · rw [if_neg h4]
            exact ⟨rfl, rfl⟩

theorem parseLines_data_aux : ∀ (ls : List Str) (a : ParseAcc),
    (ls.foldl parseLine a).data = (dataValues ls).foldl dataStep a.data := by
  intro ls
  induction ls with
  | nil => intro a; rfl
  | cons l ls ih =>
    intro a
    rw [List.foldl_cons, ih]
    have heff := (parseLine_eff a l).1
    cases hv : lineDataValue l with
    | none =>
      rw [hv] at heff
      simp [heff, dataValues, List.filterMap_cons, hv]
    | some v =>
      rw [hv] at heff
      simp [heff, dataValues, List.filterMap_cons, hv]

theorem parseLines_hb_aux : ∀ (ls : List Str) (a : ParseAcc),
    (ls.foldl parseLine a).hbResets = a.hbResets + ls.countP lineIsComment := by
  intro ls
  induction ls with
  | nil => intro a; simp
  | cons l ls ih =>
    intro a
    rw [List.foldl_cons, ih, List.countP_cons]
    have := (parseLine_eff a l).2
    rw [this]
    by_cases hc : lineIsComment l <;> simp [hc] <;> omega

theorem dataFold_all_empty : ∀ (vs : List Str), (∀ v ∈ vs, v = []) →
    vs.foldl dataStep [] = [] := by
  intro vs
  induction vs with
  | nil => intro _; rfl
  | cons v vs ih =>
    intro h
    rw [List.foldl_cons]
    have hv : v = [] := h v (List.mem_cons_self v vs)
    subst hv
    rw [show dataStep [] [] = [] from rfl]
    exact ih (fun w hw => h w (List.mem_cons_of_mem _ hw))

theorem dataFold_nonempty : ∀ (vs : List Str) (acc : Str), acc ≠ [] →
    vs.foldl dataStep acc = acc ++ (vs.map (fun w => '\n' :: w)).flatten := by
  intro vs
  induction vs with
  | nil => intro acc _; simp
  | cons v vs ih =>
    intro acc hacc
    rw [List.foldl_cons, dataStep, if_pos hacc, ih (acc ++ '\n' :: v) (by simp),
        List.map_cons, List.flatten_cons]
    simp

/-! ## Claim C6 — multi-line data reassembly (corrected) -/

/-- C6 (amended): for a frame whose first `data:` value is non-empty and
which has at least two `data:` lines, the accumulated payload (before the
best-effort JSON parse) is exactly the data values joined by `"\n"` in
order; each value is the text after the first colon with at most one
leading space stripped and everything else — embedded colons included —
verbatim.  A frame whose first `data:` value is empty drops that value
instead of contributing a separator (see the truthiness counterexample). -/
theorem multiline_data_joined (lines : List Str) (v₁ v₂ : Str) (vs : List Str)
    (hd : dataValues lines = v₁ :: v₂ :: vs) (hne : v₁ ≠ []) :
    (parseLines lines).data = specJoinData (dataValues lines) ∧
    (∀ w : Str, lineDataValue ("data: ".toList ++ w) = some w) := by
  constructor
  · rw [parseLines, parseLines_data_aux, hd]
    rw [show initAcc.data = [] from rfl, List.foldl_cons,
        show ∀ w, dataStep [] w = w from fun w => rfl]
    rw [dataFold_nonempty (v₂ :: vs) v₁ hne, specJoinData]
  · intro w
    rfl

theorem multiline_data_joined_witness :
    (parseLines ["data: a".toList, "data: b:c".toList]).data =
      specJoinData (dataValues ["data: a".toList, "data: b:c".toList]) ∧
    lineDataValue ("data: ".toList ++ "x: y".toList) = some ("x: y".toList) := by
  have h := multiline_data_joined ["data: a".toList, "data: b:c".toList]
    ['a'] ['b', ':', 'c'] [] (by decide) (by decide)
  exact ⟨h.1, h.2 ("x: y".toList)⟩

/-- C6 counterexample: the frame `"data:\ndata: a"` has data values
`["", "a"]`, whose "\n"-join is `"\na"`, but the code's truthiness-guarded
accumulation produces the payload `"a"`. -/
theorem leading_empty_data_value_breaks_join :
    parseEventRecord ("data:\ndata: a".toList) =
      some ⟨"message".toList, ['a'], none, none⟩ ∧
    specJoinData (dataValues (("data:\ndata: a".toList).splitOn '\n')) = ['\n', 'a'] ∧
    (['a'] : Str) ≠ ['\n', 'a'] := by
  exact ⟨by decide, by decide, by decide⟩

/-! ## Claim C10 — record production is gated on truthiness of `data` -/

/-- C10: a frame all of whose `data:` values are the empty string produces
no record (`_parseEvent` returns `null`), and a leading empty-valued
`data:` line is a complete no-op on the parse accumulator — in particular
it contributes no `"\n"` separator to a later data line's payload. -/
theorem data_truthiness_gating :
    (∀ lines : List Str, (∀ v ∈ dataValues lines, v = []) →
      recordOf (parseLines lines) = none) ∧
    (∀ ls : List Str, parseLines ("data:".toList :: ls) = parseLines ls) := by
  constructor
  · intro lines h
    have hd : (parseLines lines).data = [] := by
      rw [parseLines, parseLines_data_aux, show initAcc.data = [] from rfl]
      exact dataFold_all_empty _ h
    rw [recordOf, hd]
    simp
  · intro ls
    rw [parseLines, parseLines, List.foldl_cons,
        show parseLine initAcc ("data:".toList) = initAcc from by decide]

theorem data_truthiness_gating_witness :
    recordOf (parseLines ["data:".toList]) = none ∧
    parseLines ["data:".toList, "data: x".toList] = parseLines ["data: x".toList] :=
  ⟨data_truthiness_gating.1 ["data:".toList] (by decide),
   data_truthiness_gating.2 ["data: x".toList]⟩

/-! ## Claim C8 — heartbeat reset per frame (corrected) -/

theorem reset_hbArms_pos (s : ClientState) (h : s.heartbeatInterval > 0) :
    (resetHeartbeatTimer s).hbArms = s.hbArms + 1 ∧
    (resetHeartbeatTimer s).heartbeatInterval = s.heartbeatInterval := by
  constructor <;>
    simp [resetHeartbeatTimer, startHeartbeatTimer, stopHeartbeatTimer, h]

theorem iterate_reset_hbArms (n : ℕ) : ∀ s : ClientState, s.heartbeatInterval > 0 →
    (resetHeartbeatTimer^[n] s).hbArms = s.hbArms + n ∧
    (resetHeartbeatTimer^[n] s).heartbeatInterval = s.heartbeatInterval := by
  induction n with
  | zero => intro s _; simp
  | succ n ih =>
    intro s h
    rw [Function.iterate_succ_apply]
    obtain ⟨h1, h2⟩ := reset_hbArms_pos s h
    obtain ⟨ha, hb⟩ := ih (resetHeartbeatTimer s) (h2 ▸ h)
    refine ⟨?_, ?_⟩
    · rw [ha, h1]
      omega
    · rw [hb, h2]

theorem applyParseEffects_hbArms (s : ClientState) (a : ParseAcc)
    (h : s.heartbeatInterval > 0) :
    (applyParseEffects s a).hbArms = s.hbArms + a.hbResets ∧
    (applyParseEffects s a).heartbeatInterval = s.heartbeatInterval := by
  rw [applyParseEffects]
  obtain ⟨h1, h2⟩ := iterate_reset_hbArms a.hbResets s h
  cases a.idUpd <;> cases a.retryUpd <;> simp_all

/-- C8 (amended): with the heartbeat feature enabled, processing a frame
re-arms the heartbeat timer if and only if the frame contains a comment
line or produces a record; a frame consisting only of `id:`/`event:`/
`retry:`/unknown-field lines (no comment, no non-empty data) performs no
heartbeat reset.  The number of parse-time resets is exactly the number of
comment lines in the block. -/
theorem frame_heartbeat_reset_iff (s : ClientState) (block : Str)
    (h : s.heartbeatInterval > 0) :
    ((processFrame s block).hbArms ≠ s.hbArms ↔
      ((parseEventAcc block).hbResets ≠ 0 ∨ recordOf (parseEventAcc block) ≠ none)) ∧
    (parseEventAcc block).hbResets = (block.splitOn '\n').countP lineIsComment := by
  constructor
  · have hae := applyParseEffects_hbArms s (parseEventAcc block) h
    have key : (processFrame s block).hbArms =
        s.hbArms + (parseEventAcc block).hbResets +
          (if recordOf (parseEventAcc block) = none then 0 else 1) := by
      rw [processFrame]
      cases hr : recordOf (parseEventAcc block) with
      | none => simp [hr, hae.1]
      | some ev =>
        simp only [hr]
        have := (reset_hbArms_pos (applyParseEffects s (parseEventAcc block)) (hae.2 ▸ h)).1
        rw [this, hae.1]
        simp
    rw [key]
    cases hr : recordOf (parseEventAcc block) <;> simp [hr] <;> omega
  · rw [parseEventAcc, parseLines, parseLines_hb_aux, show initAcc.hbResets = 0 from rfl]
    omega

theorem frame_heartbeat_reset_iff_witness :
    (processFrame (openState defaultRetryOptions) (":keepalive".toList)).hbArms ≠
      (openState defaultRetryOptions).hbArms := by
  have h := frame_heartbeat_reset_iff (openState defaultRetryOptions) (":keepalive".toList)
    (by norm_num [openState])
  exact h.1.mpr (Or.inl (by decide))

/-- C8 counterexample: the frame `"id: 1"` is parsed out of the buffer, the
heartbeat feature is enabled, yet processing it arms no heartbeat timer —
it has no comment line and yields no record, so `_resetHeartbeatTimer` is
never called for it. -/
theorem frame_without_reset :
    (openState defaultRetryOptions).heartbeatInterval > 0 ∧
    (processFrame (openState defaultRetryOptions) ("id: 1".toList)).hbArms =
      (openState defaultRetryOptions).hbArms ∧
    (processFrame (openState defaultRetryOptions) ("id: 1".toList)).heartbeatTimer =
      (openState defaultRetryOptions).heartbeatTimer := by
  refine ⟨by norm_num [openState], by decide, by decide⟩

/-! ## Claim C3 — chunking preserves the parsed record sequence -/

/-- C3: however an input stream is split into incremental chunks, feeding
them through the buffer-remainder loop yields exactly the frames — and
hence exactly the parsed records, in the same order — of the concatenated
input processed in one call, with the same final remainder. -/
theorem chunking_preserves_records (chunks : List Str) :
    (processChunks [] chunks).2 = (extractFrames chunks.flatten).2 ∧
    ((processChunks [] chunks).1).filterMap parseEventRecord =
      ((extractFrames chunks.flatten).1).filterMap parseEventRecord := by
  have h := processChunks_eq_extract chunks [] rfl
  rw [List.nil_append] at h
  exact ⟨by rw [h], by rw [h]⟩

end DatastarSSE
